import Mathlib

/-!
Verification development for the company-news summariser pipeline
(`utils.py` / `api.py`).  The Python source is shallowly embedded: Python
strings become `String` (or `List Char` where character slicing matters),
dictionaries with fixed keys become structures, insertion-ordered dicts with
dynamic keys become association lists with dict update semantics, calls to
external libraries/models become fields of an explicit environment record,
and a call that may raise is modelled by `CallResult`.
-/

namespace NewsAnalyzer

/-- Outcome of a call into an external library: a normal return or a raised
exception carrying a message (`except Exception as e` branches match on
`exn`). -/
inductive CallResult (α : Type) where
  | ok (val : α)
  | exn (msg : String)
deriving DecidableEq

/-- The three sentiment labels produced by `analyze_sentiment`
(`label_mapping` maps `LABEL_0/1/2` to these; the classifier contract in the
spec guarantees one of the three). -/
inductive SentimentLabel where
  | POSITIVE
  | NEGATIVE
  | NEUTRAL
deriving DecidableEq

/-- Python `sentiment_i.lower()` on a label string. -/
def SentimentLabel.lower : SentimentLabel → String
  | .POSITIVE => "positive"
  | .NEGATIVE => "negative"
  | .NEUTRAL => "neutral"

/-- The `{"label": ..., "score": ...}` dict built by `analyze_sentiment`. -/
structure Sentiment where
  label : SentimentLabel
  score : ℚ
deriving DecidableEq

/-- A successfully processed article: the dict built at the end of
`process_article` (keys `title`, `summary`, `sentiment`, `topics`, `url`). -/
structure Article where
  title : String
  summary : String
  sentiment : Sentiment
  topics : List String
  url : String
deriving DecidableEq

instance : Inhabited Article :=
  ⟨⟨"", "", ⟨.NEUTRAL, 1/2⟩, [], ""⟩⟩

/-- Result of `process_article` for one URL: either the article dict, or the
`{"url": ..., "error": ...}` dict returned on extraction failure or
exception. -/
inductive ProcResult where
  | success (article : Article)
  | failure (url : String) (err : String)
deriving DecidableEq

/-- The filter `"error" not in article` used by `analyze_company_news`:
keep exactly the per-URL results that carry no error. -/
def okArticle : ProcResult → Option Article
  | .success a => some a
  | .failure _ _ => none

/-- The `sentiment_count` dict of `perform_comparative_analysis`
(fixed keys `POSITIVE`, `NEGATIVE`, `NEUTRAL`). -/
structure SentimentCount where
  POSITIVE : ℕ
  NEGATIVE : ℕ
  NEUTRAL : ℕ
deriving DecidableEq

/-- One iteration of `sentiment_count[sentiment] += 1`. -/
def bumpSentiment (sc : SentimentCount) : SentimentLabel → SentimentCount
  | .POSITIVE => { sc with POSITIVE := sc.POSITIVE + 1 }
  | .NEGATIVE => { sc with NEGATIVE := sc.NEGATIVE + 1 }
  | .NEUTRAL => { sc with NEUTRAL := sc.NEUTRAL + 1 }

/-- The `for article in articles: sentiment_count[...] += 1` loop. -/
def sentiment_count (articles : List Article) : SentimentCount :=
  articles.foldl (fun sc a => bumpSentiment sc a.sentiment.label) ⟨0, 0, 0⟩

/-- Python dict update `all_topics[topic] += 1` (inserting the key with
count 1 if absent): replace the first matching key or append at the end,
which is exactly dict semantics since keys are unique. -/
def bumpTopic : List (String × ℕ) → String → List (String × ℕ)
  | [], t => [(t, 1)]
  | (k, c) :: rest, t =>
    if k = t then (k, c + 1) :: rest else (k, c) :: bumpTopic rest t

/-- The `all_topics` dict of `perform_comparative_analysis`: fold every
topic of every article through the counting update, in iteration order. -/
def all_topics (articles : List Article) : List (String × ℕ) :=
  articles.foldl (fun m a => a.topics.foldl bumpTopic m) []

/-- Reading a count out of a topic-distribution dict (0 when absent),
i.e. `all_topics.get(t, 0)`. -/
def lookupCount (m : List (String × ℕ)) (t : String) : ℕ :=
  ((m.find? (fun p => p.1 == t)).map Prod.snd).getD 0

/-- `common_topics = [topic for topic, count in all_topics.items() if count > 1]`. -/
def common_topics (articles : List Article) : List String :=
  (all_topics articles).filterMap (fun p => if 1 < p.2 then some p.1 else none)

/-- One entry of the `comparisons` list (keys `Comparison`, `Impact`). -/
structure Comparison where
  comparisonText : String
  impactText : String
deriving DecidableEq

/-- The fixed-template comparison dict appended when two compared articles
disagree; `ip` and `jp` are the 1-based article positions. -/
def mkComparison (ip : ℕ) (si : SentimentLabel) (jp : ℕ) (sj : SentimentLabel) : Comparison :=
  ⟨"Article " ++ toString ip ++ " has a " ++ si.lower ++
      " sentiment, while Article " ++ toString jp ++ " has a " ++ sj.lower ++ " sentiment.",
    "This shows varying perspectives in the news coverage about the company."⟩

/-- The nested `for i in range(min(3, len)): for j in range(i+1, min(4, len))`
comparison loops of `perform_comparative_analysis`, guarded by
`len(articles) >= 2`.  In the embedding every article has a `sentiment`
field, so the `"sentiment" in articles[i]` checks are always true. -/
def comparisons_of (articles : List Article) : List Comparison :=
  if 2 ≤ articles.length then
    (List.range (min 3 articles.length)).foldl (fun acc i =>
      (List.range' (i + 1) (min 4 articles.length - (i + 1))).foldl (fun acc2 j =>
        if i ≠ j then
          if (articles.getD i default).sentiment.label ≠ (articles.getD j default).sentiment.label then
            acc2 ++ [mkComparison (i + 1) (articles.getD i default).sentiment.label
              (j + 1) (articles.getD j default).sentiment.label]
          else acc2
        else acc2) acc) []
  else []

/-- The comparison window described by the spec: all index pairs `(i, j)`
with `0 ≤ i < min(3, N)` and `i + 1 ≤ j < min(4, N)`, in loop order. -/
def comparisonPairs (n : ℕ) : List (ℕ × ℕ) :=
  (List.range (min 3 n)).flatMap (fun i =>
    (List.range' (i + 1) (min 4 n - (i + 1))).map (fun j => (i, j)))

/-- The insight emitted for one compared index pair: the fixed-template
comparison when the two compared articles have differing sentiment labels,
otherwise. -/
def pairInsight (articles : List Article) (p : ℕ × ℕ) : Option Comparison :=
  let si := (articles.getD p.1 default).sentiment.label
  let sj := (articles.getD p.2 default).sentiment.label
  if si ≠ sj then some (mkComparison (p.1 + 1) si (p.2 + 1) sj) else none

/-- The `"Topic Overlap"` sub-dict of the comparative result. -/
structure TopicOverlap where
  commonTopics : List String
  topicDistribution : List (String × ℕ)
deriving DecidableEq

/-- The dict returned by `perform_comparative_analysis`. -/
structure ComparativeResult where
  sentimentDistribution : SentimentCount
  coverageDifferences : List Comparison
  topicOverlap : TopicOverlap
  finalSentimentAnalysis : String
deriving DecidableEq

/-- `NewsAnalyzer.perform_comparative_analysis` (utils.py lines 310-388).
The `try` body never raises in the embedding: the only latent exception in
the source is the `sentiment_count[sentiment] += 1` key error for labels
outside the three-value scheme, which the label mapping of
`analyze_sentiment` rules out. -/
def perform_comparative_analysis (articles : List Article) : ComparativeResult :=
  let sc := sentiment_count articles
  let positive_ratio : ℚ := if articles ≠ [] then (sc.POSITIVE : ℚ) / (articles.length : ℚ) else 0
  let negative_ratio : ℚ := if articles ≠ [] then (sc.NEGATIVE : ℚ) / (articles.length : ℚ) else 0
  let verdict :=
    if positive_ratio > 0.6 then ("mostly positive", "Potential positive impact expected.")
    else if negative_ratio > 0.6 then ("mostly negative", "Potential challenges might be ahead.")
    else ("mixed", "The situation appears complex with both positive and negative aspects.")
  { sentimentDistribution := sc
    coverageDifferences := comparisons_of articles
    topicOverlap := ⟨common_topics articles, all_topics articles⟩
    finalSentimentAnalysis :=
      "The company\x27s latest news coverage is " ++ verdict.1 ++ ". " ++ verdict.2 }

/-- Model of `asyncio.gather(*tasks)`: the tasks complete in the order given
by `sched` (a permutation of the task indices), and each completing task
deposits its value in the slot of its original index; the gathered list reads
the slots back in index order.  `tasks` holds the eventual value of each
task. -/
def gatherSched {α : Type} (tasks : List α) (sched : List ℕ) : List α :=
  let slots := sched.foldl (fun f i => Function.update f i tasks[i]?) (fun _ => (none : Option α))
  (List.range tasks.length).filterMap slots

/-- The per-run environment of `analyze_company_news`: the resolver
(`get_google_news_urls`), the per-URL pipeline (`process_article`, which by
construction returns a dict and never raises), and the translation/TTS
helpers (both swallow their exceptions and return a string). -/
structure AnalyzerEnv where
  get_google_news_urls : String → List String
  process_article : String → ProcResult
  translate_to_hindi : String → String
  generate_tts : String → String

/-- The value returned by `analyze_company_news`: either the
`{"Company": ..., "error": ...}` dict or the full result dict. -/
inductive CompanyResult where
  | error (company : String) (msg : String)
  | success (company : String) (articles : List Article)
      (comparative : ComparativeResult) (finalSentiment : String)
      (hindiText : String) (audio : String)
deriving DecidableEq

/-- The `Articles` list of a result, when the result is success-shaped. -/
def resultArticles : CompanyResult → Option (List Article)
  | .success _ arts _ _ _ _ => some arts
  | .error _ _ => none

/-- Whether a result is the `{"Company", "error"}` shape. -/
def isErrorResult : CompanyResult → Bool
  | .error _ _ => true
  | .success _ _ _ _ _ _ => false

/-- `NewsAnalyzer.analyze_company_news` (utils.py lines 432-496): resolve
URLs, truncate to 10, fan out `process_article` over them concurrently
(`asyncio.gather`, with `sched` as the completion order), keep the results
without an `error` key, and fail the run when nothing was found or nothing
survived. -/
def analyze_company_news (env : AnalyzerEnv) (sched : List ℕ) (company_name : String) :
    CompanyResult :=
  let urls := env.get_google_news_urls company_name
  if urls = [] then .error company_name "No news articles found for this company"
  else
    let urls10 := urls.take 10
    let tasks := urls10.map env.process_article
    let articles := gatherSched tasks sched
    let valid_articles := articles.filterMap okArticle
    if valid_articles = [] then .error company_name "Could not process any articles for this company"
    else
      let comparative := perform_comparative_analysis valid_articles
      let final_sentiment := comparative.finalSentimentAnalysis
      let tts_text := company_name ++ " के बारे में समाचार विश्लेषण: " ++ final_sentiment
      let hindi_text := env.translate_to_hindi tts_text
      let audio_data := env.generate_tts hindi_text
      .success company_name valid_articles comparative final_sentiment hindi_text audio_data

/-- The external calls made by `extract_article_content`:
`trafilatura.fetch_url` (may raise, may return a falsy page), with the page
modelled as `Option String` (`none` = Python `None`), `trafilatura.extract`
(may raise, returns `None` when no body text can be extracted), and the
BeautifulSoup title lookup plus `strip()` as a pure function of the page. -/
structure ExtractEnv where
  fetch_url : String → CallResult (Option String)
  extract : String → CallResult (Option String)
  page_title : String → String

/-- The dict returned by `extract_article_content`: `text` is
`Option String` because `trafilatura.extract` can return `None`, and
`error` is present only on the failure branches. -/
structure ExtractedContent where
  title : String
  text : Option String
  url : String
  error : Option String
deriving DecidableEq

/-- `NewsAnalyzer.extract_article_content` (utils.py lines 117-152): fetch
the page, return an error dict when the download is falsy (`None` or empty)
or an exception escapes, otherwise extract the body text and the page title;
note that the success branch carries no `error` key even when the extracted
text is `None`. -/
def extract_article_content (env : ExtractEnv) (url : String) : ExtractedContent :=
  match env.fetch_url url with
  | .exn e => ⟨"", some "", url, some e⟩
  | .ok downloaded =>
    if downloaded.getD "" = "" then ⟨"", some "", url, some "Failed to download page"⟩
    else
      match env.extract (downloaded.getD "") with
      | .exn e => ⟨"", some "", url, some e⟩
      | .ok text => ⟨env.page_title (downloaded.getD ""), text, url, none⟩

/-- The external call made by `translate_to_hindi`:
`translator.translate(text, dest=hi).text`, which may raise.  Text is
`List Char` so that Python slicing is `List.take`. -/
structure TranslateEnv where
  translate : List Char → CallResult (List Char)

/-- `NewsAnalyzer.translate_to_hindi` (utils.py lines 252-273): truncate to
1500 characters, return `""` on empty input, and on an exception from the
translator return the (already truncated) text. -/
def translate_to_hindi (env : TranslateEnv) (text : List Char) : List Char :=
  let t := text.take 1500
  if t = [] then []
  else
    match env.translate t with
    | .ok result => result
    | .exn _ => t

/-- The external model call made by `summarize_text`: tokenizer + `generate`
+ `decode` as one black box from the (truncated) text and `max_length` to
the decoded summary, which may raise. -/
structure SummarizeEnv where
  generate : List Char → ℕ → CallResult (List Char)

/-- `NewsAnalyzer.summarize_text` (utils.py lines 190-224; `max_length`
defaults to 150 at call sites): truncate the input to 1024 characters,
return `""` on empty input, run the model, and on an exception fall back to
`text[:max_length] + "..." if len(text) > max_length else text`. -/
def summarize_text (env : SummarizeEnv) (text : List Char) (max_length : ℕ) : List Char :=
  let t := text.take 1024
  if t = [] then []
  else
    match env.generate t max_length with
    | .ok summary => summary
    | .exn _ => if max_length < t.length then t.take max_length ++ ['.', '.', '.'] else t

end NewsAnalyzer

namespace Api

open NewsAnalyzer

/-- Python dict assignment `d[k] = v` on an insertion-ordered dict modelled
as an association list: overwrite the existing entry in place, or append a
new one at the end. -/
def updateAssoc {α : Type} : List (String × α) → String → α → List (String × α)
  | [], k, v => [(k, v)]
  | (k2, v2) :: rest, k, v =>
    if k2 = k then (k, v) :: rest else (k2, v2) :: updateAssoc rest k v

/-- Python dict lookup `d[k]` / `k in d` on the association-list model. -/
def lookupAssoc {α : Type} (m : List (String × α)) (k : String) : Option α :=
  (m.find? (fun p => p.1 == k)).map Prod.snd

/-- One entry of the `background_tasks` store in api.py: initialised
`{"completed": False}`, then overwritten with the result of the run or the
error string of an escaped exception. -/
inductive TaskState where
  | pending
  | done (result : CompanyResult)
  | failed (err : String)
deriving DecidableEq

/-- The module-level mutable state of api.py: the `analysis_cache` dict and
the `background_tasks` dict. -/
structure ApiState where
  analysis_cache : List (String × CompanyResult)
  background_tasks : List (String × TaskState)
deriving DecidableEq

/-- The `AnalysisResponse` payload returned by the `/analyze-company`
endpoint. -/
structure AnalysisResponse where
  status : String
  task_id : Option String
  message : String
  data : Option CompanyResult
deriving DecidableEq

/-- Python `str.strip()`: drop leading and trailing whitespace. -/
def strip (s : String) : String :=
  ⟨((s.data.dropWhile Char.isWhitespace).reverse.dropWhile Char.isWhitespace).reverse⟩

/-- The task id built by the endpoint: the `task_` prefix plus the company
name with spaces replaced by underscores, lowercased. -/
def task_id_of (company_name : String) : String :=
  "task_" ++ String.map Char.toLower (String.map (fun c => if c = ' ' then '_' else c) company_name)

/-- The `analyze_company` endpoint of api.py (lines 61-121), up to spawning
the background task: strip the requested name, reject empty names with an
HTTP 400 (`Except.error`), answer cache hits immediately with status
`"success"`, and otherwise register a pending task and launch a run.  The
returned `Bool` records whether a new background run was launched. -/
def analyze_company (st : ApiState) (raw_name : String) :
    Except String (AnalysisResponse × ApiState × Bool) :=
  let company_name := strip raw_name
  if company_name = "" then .error "Company name cannot be empty"
  else
    match lookupAssoc st.analysis_cache company_name with
    | some cached =>
      .ok ({ status := "success", task_id := some company_name,
             message := "Analysis found in cache", data := some cached }, st, false)
    | none =>
      let task_id := task_id_of company_name
      .ok ({ status := "processing", task_id := some task_id,
             message := "Analysis started for " ++ company_name, data := none },
           { st with background_tasks := updateAssoc st.background_tasks task_id .pending },
           true)

/-- The tail of `analyze_task` (api.py lines 88-100) when
`analyze_company_news` returned normally: cache the result under the company
name — whatever its shape — and mark the task completed with it. -/
def complete_run (st : ApiState) (task_id company_name : String) (result : CompanyResult) :
    ApiState :=
  { analysis_cache := updateAssoc st.analysis_cache company_name result
    background_tasks := updateAssoc st.background_tasks task_id (.done result) }

end Api

namespace Fixtures

open NewsAnalyzer Api

/-- A concrete POSITIVE article used to evaluate the embedding. -/
def artPos : Article := ⟨"T1", "S1", ⟨.POSITIVE, 9/10⟩, ["Sales", "Growth"], "http://a"⟩

/-- A concrete NEGATIVE article sharing the topic `"Sales"` with `artPos`. -/
def artNeg : Article := ⟨"T2", "S2", ⟨.NEGATIVE, 8/10⟩, ["Regulation", "Sales"], "http://b"⟩

/-- A concrete NEUTRAL article. -/
def artNeu : Article := ⟨"T3", "S3", ⟨.NEUTRAL, 1/2⟩, ["Markets"], "http://c"⟩

/-- An orchestrator environment whose resolver finds no URLs. -/
def envEmpty : AnalyzerEnv :=
  ⟨fun _ => [], fun u => .failure u "No content extracted", fun t => t, fun _ => ""⟩

/-- An orchestrator environment with one URL whose processing succeeds. -/
def envOne : AnalyzerEnv :=
  ⟨fun _ => ["http://a"], fun _ => .success artPos, fun t => t, fun _ => ""⟩

/-- An orchestrator environment whose resolver finds URLs but where every
per-URL processing fails. -/
def envAllFail : AnalyzerEnv :=
  ⟨fun _ => ["http://a", "http://b"], fun u => .failure u "No content extracted",
    fun t => t, fun _ => ""⟩

/-- An extraction environment where the page downloads fine but
`trafilatura.extract` finds no body text (returns `None`). -/
def envNoBody : ExtractEnv :=
  ⟨fun _ => .ok (some "<html><body><nav>menu</nav></body></html>"), fun _ => .ok none,
    fun _ => "Some Title"⟩

/-- An extraction environment where `trafilatura.fetch_url` returns `None`. -/
def envFetchNone : ExtractEnv :=
  ⟨fun _ => .ok none, fun _ => .ok none, fun _ => ""⟩

/-- An extraction environment where both calls succeed with body text. -/
def envExtractOk : ExtractEnv :=
  ⟨fun _ => .ok (some "<html><body>story</body></html>"), fun _ => .ok (some "story"),
    fun _ => "Some Title"⟩

/-- A translation environment whose underlying call always raises. -/
def envTranslateFail : TranslateEnv := ⟨fun _ => .exn "timeout"⟩

/-- An input text longer than the 1500-character truncation bound of
`translate_to_hindi`. -/
def longText : List Char := List.replicate 1501 'a'

/-- A summarization environment whose model call always raises. -/
def envSummarizeFail : SummarizeEnv := ⟨fun _ _ => .exn "model error"⟩

/-- A 200-character input, longer than the default `max_length` of 150. -/
def text200 : List Char := List.replicate 200 'a'

/-- The empty api.py module state (fresh process). -/
def st0 : ApiState := ⟨[], []⟩

/-- A run-level error result, as produced by `analyze_company_news` when the
resolver finds nothing. -/
def res0 : CompanyResult := .error "Acme" "No news articles found for this company"

end Fixtures

namespace NewsAnalyzer

theorem foldl_update_eq {α : Type} (tasks : List α) (sched : List ℕ) (acc : ℕ → Option α) (j : ℕ) :
    sched.foldl (fun f i => Function.update f i tasks[i]?) acc j
      = if j ∈ sched then tasks[j]? else acc j := by
  induction sched generalizing acc with
  | nil => simp
  | cons i rest ih =>
    simp only [List.foldl_cons]
    rw [ih]
    by_cases hj : j ∈ rest
    · simp [hj]
    · by_cases hji : j = i
      · subst hji
        simp [hj, Function.update_apply]
      · simp [hj, hji, Function.update_apply]

theorem range_length_filterMap_getElem {α : Type} (l : List α) :
    (List.range l.length).filterMap (fun j => l[j]?) = l := by
  induction l with
  | nil => simp
  | cons a t ih =>
    rw [List.length_cons, List.range_succ_eq_map]
    have hfg : List.filterMap ((fun j => (a :: t)[j]?) ∘ Nat.succ) (List.range t.length)
        = List.filterMap (fun j => t[j]?) (List.range t.length) :=
      List.filterMap_congr (fun j _ => by simp)
    simp only [List.filterMap_cons, List.getElem?_cons_zero, List.filterMap_map]
    rw [hfg, ih]

theorem gatherSched_eq_of_complete {α : Type} (tasks : List α) (sched : List ℕ)
    (h : ∀ j, j < tasks.length → j ∈ sched) :
    gatherSched tasks sched = tasks := by
  have hcong :
      (List.range tasks.length).filterMap
        (sched.foldl (fun f i => Function.update f i tasks[i]?) (fun _ => (none : Option α)))
      = (List.range tasks.length).filterMap (fun j => tasks[j]?) :=
    List.filterMap_congr (fun j hj => by
      rw [foldl_update_eq]
      simp [h j (List.mem_range.mp hj)])
  simp only [gatherSched]
  rw [hcong, range_length_filterMap_getElem]

theorem mem_of_mem_gatherSched {α : Type} {tasks : List α} {sched : List ℕ} {x : α}
    (hx : x ∈ gatherSched tasks sched) : x ∈ tasks := by
  simp only [gatherSched] at hx
  obtain ⟨j, hj, hsome⟩ := List.mem_filterMap.mp hx
  rw [foldl_update_eq] at hsome
  by_cases hjs : j ∈ sched
  · rw [if_pos hjs] at hsome
    exact List.getElem?_mem hsome
  · rw [if_neg hjs] at hsome
    simp at hsome

theorem gatherSched_length_le {α : Type} (tasks : List α) (sched : List ℕ) :
    (gatherSched tasks sched).length ≤ tasks.length := by
  simp only [gatherSched]
  have h := List.length_filterMap_le
    (sched.foldl (fun f i => Function.update f i tasks[i]?) (fun _ => (none : Option α)))
    (List.range tasks.length)
  simpa [List.length_range] using h

theorem foldl_bumpSentiment_POSITIVE (l : List Article) (sc : SentimentCount) :
    (l.foldl (fun sc a => bumpSentiment sc a.sentiment.label) sc).POSITIVE
      = sc.POSITIVE + l.countP (fun a => a.sentiment.label == SentimentLabel.POSITIVE) := by
  induction l generalizing sc with
  | nil => simp
  | cons a t ih =>
    simp only [List.foldl_cons]
    rw [ih, List.countP_cons]
    cases h : a.sentiment.label <;> simp [bumpSentiment, h] <;> omega

theorem foldl_bumpSentiment_NEGATIVE (l : List Article) (sc : SentimentCount) :
    (l.foldl (fun sc a => bumpSentiment sc a.sentiment.label) sc).NEGATIVE
      = sc.NEGATIVE + l.countP (fun a => a.sentiment.label == SentimentLabel.NEGATIVE) := by
  induction l generalizing sc with
  | nil => simp
  | cons a t ih =>
    simp only [List.foldl_cons]
    rw [ih, List.countP_cons]
    cases h : a.sentiment.label <;> simp [bumpSentiment, h] <;> omega

/-- Claim C3: for every non-empty valid article set, the final verdict of
`perform_comparative_analysis` is the pure threshold function of
`positive_ratio = #POSITIVE / N` and `negative_ratio = #NEGATIVE / N`:
"mostly positive" with its fixed clause when `positive_ratio > 0.6`,
otherwise "mostly negative" with its fixed clause when
`negative_ratio > 0.6`, otherwise "mixed" with its fixed clause, each in
the fixed sentence template. -/
theorem perform_comparative_analysis_verdict (articles : List Article)
    (h : articles ≠ []) :
    (perform_comparative_analysis articles).finalSentimentAnalysis =
      if ((articles.countP (fun a => a.sentiment.label == SentimentLabel.POSITIVE) : ℚ)
            / (articles.length : ℚ)) > 0.6 then
        "The company\x27s latest news coverage is mostly positive. Potential positive impact expected."
      else if ((articles.countP (fun a => a.sentiment.label == SentimentLabel.NEGATIVE) : ℚ)
            / (articles.length : ℚ)) > 0.6 then
        "The company\x27s latest news coverage is mostly negative. Potential challenges might be ahead."
      else
        "The company\x27s latest news coverage is mixed. The situation appears complex with both positive and negative aspects." := by
  have hp : (sentiment_count articles).POSITIVE
      = articles.countP (fun a => a.sentiment.label == SentimentLabel.POSITIVE) := by
    simpa using foldl_bumpSentiment_POSITIVE articles ⟨0, 0, 0⟩
  have hn : (sentiment_count articles).NEGATIVE
      = articles.countP (fun a => a.sentiment.label == SentimentLabel.NEGATIVE) := by
    simpa using foldl_bumpSentiment_NEGATIVE articles ⟨0, 0, 0⟩
  simp only [perform_comparative_analysis, hp, hn, if_pos h, ne_eq, h, not_false_eq_true,
    if_true]
  split_ifs <;> rfl

/-- Witness for C3: four POSITIVE and one NEUTRAL article give
`positive_ratio = 0.8 > 0.6`, hence the fixed "mostly positive" verdict. -/
theorem perform_comparative_analysis_verdict_witness :
    ([Fixtures.artPos, Fixtures.artPos, Fixtures.artPos, Fixtures.artPos,
        Fixtures.artNeu] ≠ [])
    ∧ (perform_comparative_analysis [Fixtures.artPos, Fixtures.artPos, Fixtures.artPos,
        Fixtures.artPos, Fixtures.artNeu]).finalSentimentAnalysis =
      "The company\x27s latest news coverage is mostly positive. Potential positive impact expected." := by
  refine ⟨by simp, ?_⟩
  rw [perform_comparative_analysis_verdict _ (by simp)]
  have hcp : [Fixtures.artPos, Fixtures.artPos, Fixtures.artPos, Fixtures.artPos,
      Fixtures.artNeu].countP (fun a => a.sentiment.label == SentimentLabel.POSITIVE) = 4 := by
    decide
  have hlen : ([Fixtures.artPos, Fixtures.artPos, Fixtures.artPos, Fixtures.artPos,
      Fixtures.artNeu] : List Article).length = 5 := rfl
  rw [hcp, hlen, if_pos (by norm_num)]

theorem lookupCount_nil (s : String) : lookupCount [] s = 0 := rfl

theorem lookupCount_cons (k : String) (c : ℕ) (rest : List (String × ℕ)) (s : String) :
    lookupCount ((k, c) :: rest) s = if k = s then c else lookupCount rest s := by
  by_cases hks : k = s
  · subst hks
    simp [lookupCount, List.find?_cons]
  · have hbeq : (k == s) = false := beq_eq_false_iff_ne.mpr hks
    simp [lookupCount, List.find?_cons, hbeq, hks]

theorem bumpTopic_nil (t : String) : bumpTopic [] t = [(t, 1)] := rfl

theorem bumpTopic_cons_pos {k t : String} (c : ℕ) (rest : List (String × ℕ)) (h : k = t) :
    bumpTopic ((k, c) :: rest) t = (k, c + 1) :: rest := by
  simp [bumpTopic, h]

theorem bumpTopic_cons_neg {k t : String} (c : ℕ) (rest : List (String × ℕ)) (h : ¬k = t) :
    bumpTopic ((k, c) :: rest) t = (k, c) :: bumpTopic rest t := by
  simp [bumpTopic, h]

theorem lookupCount_bumpTopic (m : List (String × ℕ)) (t s : String) :
    lookupCount (bumpTopic m t) s = lookupCount m s + if s = t then 1 else 0 := by
  induction m with
  | nil =>
    rw [bumpTopic_nil, lookupCount_cons, lookupCount_nil]
    by_cases hst : s = t
    · simp [hst]
    · rw [if_neg (fun h => hst h.symm), if_neg hst]
  | cons kv rest ih =>
    obtain ⟨k, c⟩ := kv
    by_cases hkt : k = t
    · rw [bumpTopic_cons_pos c rest hkt, lookupCount_cons, lookupCount_cons]
      subst hkt
      by_cases hks : k = s
      · subst hks
        simp
      · simp [hks, show ¬s = k from fun h => hks h.symm]
    · rw [bumpTopic_cons_neg c rest hkt, lookupCount_cons, lookupCount_cons]
      by_cases hks : k = s
      · have hst : ¬s = t := fun h => hkt (hks.trans h)
        simp [hks, hst]
      · simp [hks, ih]

theorem lookupCount_foldl_bumpTopic (topics : List String) (m : List (String × ℕ)) (s : String) :
    lookupCount (topics.foldl bumpTopic m) s = lookupCount m s + topics.count s := by
  induction topics generalizing m with
  | nil => simp
  | cons t rest ih =>
    simp only [List.foldl_cons]
    rw [ih, lookupCount_bumpTopic, List.count_cons]
    by_cases hst : s = t
    · subst hst
      simp
      omega
    · have hts : (t == s) = false := beq_eq_false_iff_ne.mpr (fun h => hst h.symm)
      simp [hst, hts]

theorem count_eq_ite_of_nodup {l : List String} (hnd : l.Nodup) (s : String) :
    l.count s = if s ∈ l then 1 else 0 := by
  by_cases hmem : s ∈ l
  · simp [hmem, List.count_eq_one_of_mem hnd hmem]
  · simp [hmem, List.count_eq_zero_of_not_mem hmem]

theorem lookupCount_all_topics (articles : List Article)
    (h : ∀ a ∈ articles, a.topics.Nodup) (s : String) :
    lookupCount (all_topics articles) s
      = articles.countP (fun a => decide (s ∈ a.topics)) := by
  suffices h2 : ∀ (arts : List Article) (m : List (String × ℕ)),
      (∀ a ∈ arts, a.topics.Nodup) →
      lookupCount (arts.foldl (fun m a => a.topics.foldl bumpTopic m) m) s
        = lookupCount m s + arts.countP (fun a => decide (s ∈ a.topics)) by
    simpa [all_topics, lookupCount_nil] using h2 articles [] h
  intro arts
  induction arts with
  | nil => simp
  | cons a rest ih =>
    intro m hnd
    simp only [List.foldl_cons]
    rw [ih _ (fun b hb => hnd b (List.mem_cons_of_mem _ hb)), lookupCount_foldl_bumpTopic,
      List.countP_cons, count_eq_ite_of_nodup (hnd a (List.mem_cons_self _ _)) s]
    by_cases hmem : s ∈ a.topics <;> simp [hmem] <;> omega

theorem mem_keys_bumpTopic (m : List (String × ℕ)) (t s : String) :
    s ∈ (bumpTopic m t).map Prod.fst ↔ s ∈ m.map Prod.fst ∨ s = t := by
  induction m with
  | nil =>
    rw [bumpTopic_nil]
    simp
  | cons kv rest ih =>
    obtain ⟨k, c⟩ := kv
    by_cases hkt : k = t
    · rw [bumpTopic_cons_pos c rest hkt]
      subst hkt
      simp only [List.map_cons, List.mem_cons]
      tauto
    · rw [bumpTopic_cons_neg c rest hkt]
      simp only [List.map_cons, List.mem_cons, ih]
      tauto

theorem nodup_keys_bumpTopic {m : List (String × ℕ)} (t : String)
    (h : (m.map Prod.fst).Nodup) : ((bumpTopic m t).map Prod.fst).Nodup := by
  induction m with
  | nil =>
    rw [bumpTopic_nil]
    simp
  | cons kv rest ih =>
    obtain ⟨k, c⟩ := kv
    simp only [List.map_cons, List.nodup_cons] at h
    by_cases hkt : k = t
    · rw [bumpTopic_cons_pos c rest hkt]
      simp only [List.map_cons, List.nodup_cons]
      exact h
    · rw [bumpTopic_cons_neg c rest hkt]
      simp only [List.map_cons, List.nodup_cons]
      refine ⟨?_, ih h.2⟩
      rw [mem_keys_bumpTopic]
      rintro (hmem | heq)
      · exact h.1 hmem
      · exact hkt heq

theorem nodup_keys_foldl_bumpTopic (topics : List String) (m : List (String × ℕ))
    (h : (m.map Prod.fst).Nodup) :
    ((topics.foldl bumpTopic m).map Prod.fst).Nodup := by
  induction topics generalizing m with
  | nil => exact h
  | cons t rest ih =>
    simp only [List.foldl_cons]
    exact ih _ (nodup_keys_bumpTopic t h)

theorem nodup_keys_all_topics (articles : List Article) :
    ((all_topics articles).map Prod.fst).Nodup := by
  suffices h2 : ∀ (arts : List Article) (m : List (String × ℕ)),
      (m.map Prod.fst).Nodup →
      ((arts.foldl (fun m a => a.topics.foldl bumpTopic m) m).map Prod.fst).Nodup by
    simpa [all_topics] using h2 articles [] (by simp)
  intro arts
  induction arts with
  | nil => exact fun m hm => hm
  | cons a rest ih =>
    intro m hm
    simp only [List.foldl_cons]
    exact ih _ (nodup_keys_foldl_bumpTopic a.topics m hm)

theorem find?_eq_of_mem_nodup_keys {m : List (String × ℕ)} {t : String} {c : ℕ}
    (hnd : (m.map Prod.fst).Nodup) (hmem : (t, c) ∈ m) :
    m.find? (fun p => p.1 == t) = some (t, c) := by
  induction m with
  | nil => simp at hmem
  | cons kv rest ih =>
    obtain ⟨k, c2⟩ := kv
    simp only [List.map_cons, List.nodup_cons] at hnd
    rcases List.mem_cons.mp hmem with heq | hrest
    · obtain ⟨hk, hc⟩ := Prod.mk.injEq .. ▸ heq.symm
      subst hk
      subst hc
      exact List.find?_cons_of_pos _ (by simp)
    · have hkt : ¬k = t := by
        intro hk
        subst hk
        exact hnd.1 (List.mem_map.mpr ⟨(k, c), hrest, rfl⟩)
      rw [List.find?_cons_of_neg _ (by simpa using hkt)]
      exact ih hnd.2 hrest

theorem mem_common_topics_iff_lookupCount (articles : List Article) (t : String) :
    t ∈ common_topics articles ↔ 1 < lookupCount (all_topics articles) t := by
  constructor
  · intro hmem
    obtain ⟨p, hp, hsome⟩ := List.mem_filterMap.mp hmem
    by_cases h1 : 1 < p.2
    · rw [if_pos h1, Option.some.injEq] at hsome
      subst hsome
      have hfind := find?_eq_of_mem_nodup_keys (nodup_keys_all_topics articles)
        (show (p.1, p.2) ∈ all_topics articles from hp)
      simp [lookupCount, hfind]
      exact h1
    · rw [if_neg h1] at hsome
      cases hsome
  · intro hlt
    rcases hfind : (all_topics articles).find? (fun p => p.1 == t) with _ | q
    · simp [lookupCount, hfind] at hlt
    · have hq1 : q.1 = t := by simpa using List.find?_some hfind
      have hqmem : q ∈ all_topics articles := List.mem_of_find?_eq_some hfind
      have hq2 : 1 < q.2 := by simpa [lookupCount, hfind] using hlt
      exact List.mem_filterMap.mpr ⟨q, hqmem, by rw [if_pos hq2, hq1]⟩

/-- Claim C4: for every valid article set with duplicate-free (ranked)
per-article topic lists, the `topic_distribution` of
`perform_comparative_analysis` maps each topic to the number of articles
whose topic list contains it, and `common_topics` is exactly the set of
topics occurring in more than one article, equivalently those whose
distribution count exceeds 1. -/
theorem perform_comparative_analysis_topics (articles : List Article)
    (h : ∀ a ∈ articles, a.topics.Nodup) :
    (∀ t, lookupCount (perform_comparative_analysis articles).topicOverlap.topicDistribution t
        = articles.countP (fun a => decide (t ∈ a.topics)))
    ∧ ∀ t, t ∈ (perform_comparative_analysis articles).topicOverlap.commonTopics
        ↔ 1 < articles.countP (fun a => decide (t ∈ a.topics)) := by
  have hdist : (perform_comparative_analysis articles).topicOverlap.topicDistribution
      = all_topics articles := rfl
  have hcomm : (perform_comparative_analysis articles).topicOverlap.commonTopics
      = common_topics articles := rfl
  constructor
  · intro t
    rw [hdist]
    exact lookupCount_all_topics articles h t
  · intro t
    rw [hcomm, mem_common_topics_iff_lookupCount, lookupCount_all_topics articles h t]

/-- Witness for C4: two articles sharing the topic `"Sales"`; its
distribution count is 2 and it is a common topic. -/
theorem perform_comparative_analysis_topics_witness :
    (∀ a ∈ [Fixtures.artPos, Fixtures.artNeg], a.topics.Nodup)
    ∧ lookupCount (perform_comparative_analysis
        [Fixtures.artPos, Fixtures.artNeg]).topicOverlap.topicDistribution "Sales"
        = [Fixtures.artPos, Fixtures.artNeg].countP (fun a => decide ("Sales" ∈ a.topics))
    ∧ ("Sales" ∈ (perform_comparative_analysis
        [Fixtures.artPos, Fixtures.artNeg]).topicOverlap.commonTopics
        ↔ 1 < [Fixtures.artPos, Fixtures.artNeg].countP (fun a => decide ("Sales" ∈ a.topics))) := by
  have hnd : ∀ a ∈ [Fixtures.artPos, Fixtures.artNeg], a.topics.Nodup := by decide
  exact ⟨hnd,
    (perform_comparative_analysis_topics [Fixtures.artPos, Fixtures.artNeg] hnd).1 "Sales",
    (perform_comparative_analysis_topics [Fixtures.artPos, Fixtures.artNeg] hnd).2 "Sales"⟩

theorem foldl_append_eq_flatMap {α β : Type} (l : List α) (g : α → List β) (init : List β) :
    l.foldl (fun acc x => acc ++ g x) init = init ++ l.flatMap g := by
  induction l generalizing init with
  | nil => simp
  | cons a t ih =>
    simp only [List.foldl_cons, List.flatMap_cons]
    rw [ih]
    simp [List.append_assoc]

theorem foldl_comparisons_eq (articles : List Article) (i : ℕ) (js : List ℕ)
    (acc : List Comparison) :
    js.foldl (fun acc2 j =>
        if i ≠ j then
          if (articles.getD i default).sentiment.label
              ≠ (articles.getD j default).sentiment.label then
            acc2 ++ [mkComparison (i + 1) (articles.getD i default).sentiment.label
              (j + 1) (articles.getD j default).sentiment.label]
          else acc2
        else acc2) acc
      = acc ++ js.filterMap (fun j => if i ≠ j then pairInsight articles (i, j) else none) := by
  induction js generalizing acc with
  | nil => simp
  | cons j rest ih =>
    simp only [List.foldl_cons]
    by_cases hij : i ≠ j
    · by_cases hd : (articles.getD i default).sentiment.label
          ≠ (articles.getD j default).sentiment.label
      · rw [if_pos hij, if_pos hd, ih,
          @List.filterMap_cons_some ℕ Comparison
            (fun j => if i ≠ j then pairInsight articles (i, j) else none) j rest
            (mkComparison (i + 1) (articles.getD i default).sentiment.label
              (j + 1) (articles.getD j default).sentiment.label)
            (by
              simp only [pairInsight, if_pos hij]
              rw [if_pos (by simpa using hd)])]
        simp
      · rw [if_pos hij, if_neg hd, ih,
          @List.filterMap_cons_none ℕ Comparison
            (fun j => if i ≠ j then pairInsight articles (i, j) else none) j rest
            (by
              simp only [pairInsight, if_pos hij]
              rw [if_neg (by simpa using hd)])]
    · rw [if_neg hij, ih,
        @List.filterMap_cons_none ℕ Comparison
          (fun j => if i ≠ j then pairInsight articles (i, j) else none) j rest
          (by simp [hij])]

/-- Claim C5: `coverage_differences` contains exactly one fixed-template
insight for each index pair `(i, j)` with `0 ≤ i < min(3, N)` and
`i + 1 ≤ j < min(4, N)` whose articles have differing sentiment labels, in
pair order; with fewer than 2 valid articles it is empty. -/
theorem comparisons_of_characterisation (articles : List Article) :
    comparisons_of articles
      = (comparisonPairs articles.length).filterMap (pairInsight articles)
    ∧ (articles.length < 2 → comparisons_of articles = []) := by
  have hmain : comparisons_of articles
      = (comparisonPairs articles.length).filterMap (pairInsight articles) := by
    by_cases h2 : 2 ≤ articles.length
    · unfold comparisons_of
      rw [if_pos h2]
      have hfun : (fun (acc : List Comparison) (i : ℕ) =>
          (List.range' (i + 1) (min 4 articles.length - (i + 1))).foldl (fun acc2 j =>
            if i ≠ j then
              if (articles.getD i default).sentiment.label
                  ≠ (articles.getD j default).sentiment.label then
                acc2 ++ [mkComparison (i + 1) (articles.getD i default).sentiment.label
                  (j + 1) (articles.getD j default).sentiment.label]
              else acc2
            else acc2) acc)
          = fun (acc : List Comparison) (i : ℕ) =>
            acc ++ (List.range' (i + 1) (min 4 articles.length - (i + 1))).filterMap
              (fun j => if i ≠ j then pairInsight articles (i, j) else none) := by
        funext acc i
        exact foldl_comparisons_eq articles i _ acc
      rw [hfun, foldl_append_eq_flatMap]
      simp only [List.nil_append]
      rw [comparisonPairs, List.filterMap_flatMap]
      refine List.flatMap_congr (fun i hi => ?_)
      rw [List.filterMap_map]
      refine List.filterMap_congr (fun j hj => ?_)
      have hij : i ≠ j := by
        have := List.mem_range'_1.mp hj
        omega
      rw [if_pos hij]
      rfl
    · have hlt : articles.length < 2 := by omega
      unfold comparisons_of
      rw [if_neg (by omega)]
      have h01 : articles.length = 0 ∨ articles.length = 1 := by omega
      rcases h01 with h0 | h1
      · rw [h0]
        rfl
      · rw [h1]
        rfl
  refine ⟨hmain, fun hlt => ?_⟩
  unfold comparisons_of
  rw [if_neg (by omega)]

/-- Witness for C5: a single valid article gives an empty
`coverage_differences` list. -/
theorem comparisons_of_characterisation_witness :
    ([Fixtures.artPos].length < 2) ∧ comparisons_of [Fixtures.artPos] = [] :=
  ⟨by decide, (comparisons_of_characterisation [Fixtures.artPos]).2 (by decide)⟩

/-- Claim C1: for every candidate-URL list, the `Articles` list of
`analyze_company_news` is exactly the subsequence of per-URL analysis
results carrying no error, in the original URL order of the (fanned-out)
input list, regardless of the order `sched` in which the concurrent
per-URL tasks complete. -/
theorem analyze_company_news_preserves_url_order (env : AnalyzerEnv) (sched : List ℕ)
    (c : String)
    (h : sched.Perm (List.range (((env.get_google_news_urls c).take 10).map
      env.process_article).length)) :
    resultArticles (analyze_company_news env sched c) =
      if (((env.get_google_news_urls c).take 10).map env.process_article).filterMap okArticle = []
      then none
      else some ((((env.get_google_news_urls c).take 10).map
        env.process_article).filterMap okArticle) := by
  have hmem : ∀ j, j < (((env.get_google_news_urls c).take 10).map
      env.process_article).length → j ∈ sched :=
    fun j hj => h.mem_iff.mpr (List.mem_range.mpr hj)
  have hg := gatherSched_eq_of_complete _ sched hmem
  by_cases hurls : env.get_google_news_urls c = []
  · simp [analyze_company_news, hurls, resultArticles]
  · simp only [analyze_company_news]
    rw [if_neg hurls, hg]
    by_cases hvalid : (((env.get_google_news_urls c).take 10).map
        env.process_article).filterMap okArticle = []
    · rw [if_pos hvalid, if_pos hvalid]
      rfl
    · rw [if_neg hvalid, if_neg hvalid]
      rfl

/-- Witness for C1: one URL, one successful task, completion schedule `[0]`:
the `Articles` list is the singleton analysis result. -/
theorem analyze_company_news_preserves_url_order_witness :
    [0].Perm (List.range (((Fixtures.envOne.get_google_news_urls "Acme").take 10).map
      Fixtures.envOne.process_article).length)
    ∧ resultArticles (analyze_company_news Fixtures.envOne [0] "Acme")
        = some [Fixtures.artPos] := by
  have hperm : [0].Perm (List.range (((Fixtures.envOne.get_google_news_urls "Acme").take 10).map
      Fixtures.envOne.process_article).length) := by
    have : (((Fixtures.envOne.get_google_news_urls "Acme").take 10).map
        Fixtures.envOne.process_article).length = 1 := rfl
    rw [this]
    decide
  refine ⟨hperm, ?_⟩
  rw [analyze_company_news_preserves_url_order Fixtures.envOne [0] "Acme" hperm]
  rfl

/-- Claim C2: when the resolver yields no URLs, or every processed article
carries an error, `analyze_company_news` returns the structured
`{Company, error}` result (the embedding is a total function, so it never
raises); and no success-shaped result ever carries an empty `Articles`
list. -/
theorem analyze_company_news_error_result (env : AnalyzerEnv) (sched : List ℕ) (c : String) :
    ((env.get_google_news_urls c = [] ∨
        ∀ r ∈ ((env.get_google_news_urls c).take 10).map env.process_article,
          okArticle r = none) →
      ∃ msg, analyze_company_news env sched c = .error c msg)
    ∧ ∀ arts, resultArticles (analyze_company_news env sched c) = some arts → arts ≠ [] := by
  constructor
  · intro hfail
    by_cases hurls : env.get_google_news_urls c = []
    · exact ⟨"No news articles found for this company", by
        simp [analyze_company_news, hurls]⟩
    · rcases hfail with hfail | hfail
      · exact absurd hfail hurls
      · refine ⟨"Could not process any articles for this company", ?_⟩
        have hvalid : (gatherSched (((env.get_google_news_urls c).take 10).map
            env.process_article) sched).filterMap okArticle = [] :=
          List.filterMap_eq_nil_iff.mpr (fun r hr => hfail r (mem_of_mem_gatherSched hr))
        simp only [analyze_company_news]
        rw [if_neg hurls, if_pos hvalid]
  · intro arts harts
    simp only [analyze_company_news] at harts
    by_cases hurls : env.get_google_news_urls c = []
    · rw [if_pos hurls] at harts
      simp [resultArticles] at harts
    · rw [if_neg hurls] at harts
      by_cases hvalid : (gatherSched (((env.get_google_news_urls c).take 10).map
          env.process_article) sched).filterMap okArticle = []
      · rw [if_pos hvalid] at harts
        simp [resultArticles] at harts
      · rw [if_neg hvalid] at harts
        simp only [resultArticles, Option.some.injEq] at harts
        subst harts
        exact hvalid

/-- Witness for C2: an environment whose resolver finds nothing produces the
run-level error result. -/
theorem analyze_company_news_error_result_witness :
    Fixtures.envEmpty.get_google_news_urls "Acme" = []
    ∧ ∃ msg, analyze_company_news Fixtures.envEmpty [] "Acme"
        = CompanyResult.error "Acme" msg :=
  ⟨rfl, (analyze_company_news_error_result Fixtures.envEmpty [] "Acme").1 (Or.inl rfl)⟩

/-- Claim C9: `analyze_company_news` truncates the resolved URL list to
its first 10 entries before the fan-out — replacing the resolver by its
10-truncation changes nothing — and therefore every success-shaped result
has at most 10 articles. -/
theorem analyze_company_news_caps_at_ten (env : AnalyzerEnv) (sched : List ℕ) (c : String) :
    analyze_company_news env sched c
      = analyze_company_news
          ⟨fun s => (env.get_google_news_urls s).take 10, env.process_article,
            env.translate_to_hindi, env.generate_tts⟩ sched c
    ∧ ∀ arts, resultArticles (analyze_company_news env sched c) = some arts →
        arts.length ≤ 10 := by
  constructor
  · by_cases hurls : env.get_google_news_urls c = []
    · simp [analyze_company_news, hurls]
    · have hurls2 : (env.get_google_news_urls c).take 10 ≠ [] := by
        rw [Ne, List.take_eq_nil_iff]
        rintro (h10 | h0)
        · exact absurd h10 (by decide)
        · exact hurls h0
      simp only [analyze_company_news]
      rw [if_neg hurls, if_neg hurls2, List.take_take]
      norm_num
  · intro arts harts
    simp only [analyze_company_news] at harts
    by_cases hurls : env.get_google_news_urls c = []
    · rw [if_pos hurls] at harts
      simp [resultArticles] at harts
    · rw [if_neg hurls] at harts
      by_cases hvalid : (gatherSched (((env.get_google_news_urls c).take 10).map
          env.process_article) sched).filterMap okArticle = []
      · rw [if_pos hvalid] at harts
        simp [resultArticles] at harts
      · rw [if_neg hvalid] at harts
        simp only [resultArticles, Option.some.injEq] at harts
        subst harts
        calc ((gatherSched (((env.get_google_news_urls c).take 10).map
              env.process_article) sched).filterMap okArticle).length
            ≤ (gatherSched (((env.get_google_news_urls c).take 10).map
              env.process_article) sched).length := List.length_filterMap_le _ _
          _ ≤ (((env.get_google_news_urls c).take 10).map env.process_article).length :=
              gatherSched_length_le _ _
          _ ≤ 10 := by
              rw [List.length_map, List.length_take]
              exact min_le_left _ _

/-- Witness for C9: a one-URL environment; the success result has one
article, within the bound of 10. -/
theorem analyze_company_news_caps_at_ten_witness :
    resultArticles (analyze_company_news Fixtures.envOne [0] "Acme") = some [Fixtures.artPos]
    ∧ [Fixtures.artPos].length ≤ 10 := by
  have hres : resultArticles (analyze_company_news Fixtures.envOne [0] "Acme")
      = some [Fixtures.artPos] := rfl
  exact ⟨hres, (analyze_company_news_caps_at_ten Fixtures.envOne [0] "Acme").2 _ hres⟩

/-- Claim C6 counterexample: a page that downloads fine but has an
unextractable body (`trafilatura.extract` returns `None`) produces a result
with empty body text and NO error field set, contradicting the claim that
every failure mode sets the extraction error field. -/
theorem extract_article_content_counterexample :
    (extract_article_content Fixtures.envNoBody "http://example.com/a").text = none
    ∧ (extract_article_content Fixtures.envNoBody "http://example.com/a").error = none :=
  ⟨rfl, rfl⟩

/-- Claim C6 (amended): `extract_article_content` is a total function
(never raises) whose error field is set exactly on the fetch-failure
branches — a raised fetch, a falsy (`None` or empty) download — while a
successful fetch whose body extraction returns normally carries no error
field even when the extracted text is `None` or empty (that case is turned
into a per-URL error downstream by `process_article`). -/
theorem extract_article_content_error_modes (env : ExtractEnv) (url : String) :
    ((∃ e, env.fetch_url url = .exn e) ∨ env.fetch_url url = .ok none
        ∨ env.fetch_url url = .ok (some "") →
      (extract_article_content env url).error.isSome = true)
    ∧ ∀ page text, env.fetch_url url = .ok (some page) → ¬page = ""
        → env.extract page = .ok text →
        (extract_article_content env url).error = none := by
  constructor
  · rintro (⟨e, he⟩ | he | he) <;> simp [extract_article_content, he]
  · intro page text hfetch hpage hextract
    simp [extract_article_content, hfetch, hpage, hextract]

/-- Witness for C6 (amended): a `None` download sets the error field; a
successful fetch-and-extract leaves it unset. -/
theorem extract_article_content_error_modes_witness :
    Fixtures.envFetchNone.fetch_url "http://x" = .ok none
    ∧ (extract_article_content Fixtures.envFetchNone "http://x").error.isSome = true
    ∧ Fixtures.envExtractOk.extract "<html><body>story</body></html>" = .ok (some "story")
    ∧ (extract_article_content Fixtures.envExtractOk "http://x").error = none := by
  refine ⟨rfl, ?_, rfl, ?_⟩
  · exact (extract_article_content_error_modes Fixtures.envFetchNone "http://x").1
      (Or.inr (Or.inl rfl))
  · exact (extract_article_content_error_modes Fixtures.envExtractOk "http://x").2
      "<html><body>story</body></html>" (some "story") rfl (by decide) rfl

/-- Claim C7 counterexample: on a 1501-character input, a failing
translation call makes `translate_to_hindi` return the 1500-character
truncation, not the original text unchanged. -/
theorem translate_to_hindi_counterexample :
    translate_to_hindi Fixtures.envTranslateFail Fixtures.longText ≠ Fixtures.longText := by
  have heq : translate_to_hindi Fixtures.envTranslateFail Fixtures.longText
      = Fixtures.longText.take 1500 := rfl
  rw [heq]
  intro hcontra
  have h2 := congrArg List.length hcontra
  rw [List.length_take] at h2
  simp only [Fixtures.longText, List.length_replicate] at h2
  omega

/-- Claim C7 (amended): `translate_to_hindi` never raises; when the
underlying translation call fails it returns its input truncated to the
first 1500 characters — which is the identity exactly on inputs of length
at most 1500. -/
theorem translate_to_hindi_fallback (env : TranslateEnv) (text : List Char) :
    (∀ e, env.translate (text.take 1500) = .exn e →
      translate_to_hindi env text = text.take 1500)
    ∧ ∀ e, env.translate (text.take 1500) = .exn e → text.length ≤ 1500 →
      translate_to_hindi env text = text := by
  have hcore : ∀ e, env.translate (text.take 1500) = .exn e →
      translate_to_hindi env text = text.take 1500 := by
    intro e he
    by_cases ht : text.take 1500 = []
    · simp [translate_to_hindi, ht]
    · simp [translate_to_hindi, ht, he]
  refine ⟨hcore, fun e he hlen => ?_⟩
  rw [hcore e he, List.take_of_length_le hlen]

/-- Witness for C7 (amended): a short input comes back unchanged when the
translator fails. -/
theorem translate_to_hindi_fallback_witness :
    Fixtures.envTranslateFail.translate (['h', 'i'].take 1500) = .exn "timeout"
    ∧ translate_to_hindi Fixtures.envTranslateFail ['h', 'i'] = ['h', 'i'] :=
  ⟨rfl, (translate_to_hindi_fallback Fixtures.envTranslateFail ['h', 'i']).2 "timeout" rfl
    (by decide)⟩

set_option maxRecDepth 10000 in
/-- Claim C8 counterexample: on a 200-character input with
`max_length = 150`, the model-failure fallback returns the 150-character
truncation plus the 3-character `"..."` marker — 153 characters, exceeding
`max_length`. -/
theorem summarize_text_counterexample :
    ¬(summarize_text Fixtures.envSummarizeFail Fixtures.text200 150).length ≤ 150 := by
  have heq : summarize_text Fixtures.envSummarizeFail Fixtures.text200 150
      = (Fixtures.text200.take 1024).take 150 ++ ['.', '.', '.'] := rfl
  rw [heq]
  have h3 : (['.', '.', '.'] : List Char).length = 3 := rfl
  simp only [List.length_append, List.length_take, Fixtures.text200, List.length_replicate, h3]
  omega

/-- Claim C8 (amended): `summarize_text` returns the empty string on empty
input, and on the model-failure fallback path returns the (1024-truncated)
input truncated to `max_length` characters with a 3-character marker
appended when it exceeds `max_length`, the text itself otherwise — so the
fallback result has length at most `max_length + 3`, not `max_length`. -/
theorem summarize_text_fallback (env : SummarizeEnv) (text : List Char) (max_length : ℕ) :
    (text = [] → summarize_text env text max_length = [])
    ∧ ∀ e, env.generate (text.take 1024) max_length = .exn e →
      (summarize_text env text max_length).length ≤ max_length + 3 := by
  constructor
  · intro h
    subst h
    rfl
  · intro e he
    by_cases ht : text.take 1024 = []
    · simp [summarize_text, ht]
    · simp only [summarize_text, if_neg ht, he]
      by_cases hlen : max_length < (text.take 1024).length
      · rw [if_pos hlen]
        have h3 : (['.', '.', '.'] : List Char).length = 3 := rfl
        simp only [List.length_append, List.length_take, h3]
        omega
      · rw [if_neg hlen]
        omega

/-- Witness for C8 (amended): the failing-model fallback on the
200-character input stays within `150 + 3` characters. -/
theorem summarize_text_fallback_witness :
    Fixtures.envSummarizeFail.generate (Fixtures.text200.take 1024) 150 = .exn "model error"
    ∧ (summarize_text Fixtures.envSummarizeFail Fixtures.text200 150).length ≤ 153 :=
  ⟨rfl, (summarize_text_fallback Fixtures.envSummarizeFail Fixtures.text200 150).2
    "model error" rfl⟩

end NewsAnalyzer

namespace Api

open NewsAnalyzer

theorem lookupAssoc_updateAssoc_self {α : Type} (m : List (String × α)) (k : String) (v : α) :
    lookupAssoc (updateAssoc m k v) k = some v := by
  induction m with
  | nil => simp [updateAssoc, lookupAssoc, List.find?_cons]
  | cons kv rest ih =>
    obtain ⟨k2, v2⟩ := kv
    by_cases hk : k2 = k
    · subst hk
      simp [updateAssoc, lookupAssoc, List.find?_cons]
    · have hbeq : (k2 == k) = false := beq_eq_false_iff_ne.mpr hk
      simp only [updateAssoc, if_neg hk, lookupAssoc, List.find?_cons, hbeq]
      simpa [lookupAssoc] using ih

/-- Claim C10: a completed run whose result is the run-level error shape is
cached under the company name exactly like a success, so a subsequent
`/analyze-company` request for the same exact (already-stripped, non-empty)
company name is an immediate cache hit: status `"success"`, the cached
error dict as payload, unchanged state, and no new background run. -/
theorem cached_error_short_circuits (st : ApiState) (task_id c : String)
    (res : CompanyResult) (h1 : strip c = c) (h2 : ¬c = "")
    (h3 : isErrorResult res = true) :
    lookupAssoc (complete_run st task_id c res).analysis_cache c = some res
    ∧ analyze_company (complete_run st task_id c res) c =
        .ok ({ status := "success", task_id := some c,
               message := "Analysis found in cache", data := some res },
             complete_run st task_id c res, false) := by
  have hcache : lookupAssoc (complete_run st task_id c res).analysis_cache c = some res :=
    lookupAssoc_updateAssoc_self st.analysis_cache c res
  refine ⟨hcache, ?_⟩
  simp only [analyze_company, h1]
  rw [if_neg h2, hcache]

/-- Witness for C10: after a run for `"Acme"` completes with the
no-articles error result, the next request for `"Acme"` is served from the
cache with status `"success"` and launches nothing. -/
theorem cached_error_short_circuits_witness :
    strip "Acme" = "Acme" ∧ ¬"Acme" = "" ∧ isErrorResult Fixtures.res0 = true
    ∧ lookupAssoc (complete_run Fixtures.st0 "task_acme" "Acme"
        Fixtures.res0).analysis_cache "Acme" = some Fixtures.res0
    ∧ analyze_company (complete_run Fixtures.st0 "task_acme" "Acme" Fixtures.res0) "Acme" =
        .ok ({ status := "success", task_id := some "Acme",
               message := "Analysis found in cache", data := some Fixtures.res0 },
             complete_run Fixtures.st0 "task_acme" "Acme" Fixtures.res0, false) := by
  have h1 : strip "Acme" = "Acme" := by decide
  have h2 : ¬"Acme" = "" := by decide
  have h3 : isErrorResult Fixtures.res0 = true := rfl
  obtain ⟨hc, ha⟩ :=
    cached_error_short_circuits Fixtures.st0 "task_acme" "Acme" Fixtures.res0 h1 h2 h3
  exact ⟨h1, h2, h3, hc, ha⟩

end Api
